import Mathlib

/-!
# Verification of the ClassifyPixels-Unet plugin (`classifypixelsunet.py`)

A shallow embedding, in Lean 4, of the inference pipeline of the
ClassifyPixels-Unet CellProfiler plugin:

* a spatial-shape semantics of the Keras computation graph built by
  `get_core` / `get_model_3_class` (convolutions with `border_mode="same"`
  preserve spatial size, `MaxPooling2D` halves it with floor division,
  `UpSampling2D` doubles it, and `merge(..., mode="concat", concat_axis=3)`
  requires both operands to agree on the spatial axes);
* a value-level embedding of the min/max normalization performed by
  `unet_classify` over exact rationals;
* a world/effect model of `unet_initialize` and
  `download_file_from_google_drive` (filesystem, directory set, and a
  deterministic network session), recording the side effects performed;
* a buffer/heap model of the numpy array operations used by
  `unet_classify`, faithful to numpy's view/copy semantics, to reason
  about mutation of the input array;
* the per-pixel softmax output head over the reals.
-/

set_option autoImplicit false

/-! ## Shape semantics of the Keras graph builders -/

/-- A feature-map shape `(height, width, channels)`; the batch axis is
tracked separately where it matters. -/
abbrev Shape3 := ℕ × ℕ × ℕ

/-- `keras.layers.Convolution2D(filters, 3, 3, border_mode="same")`:
spatial dimensions are preserved, the channel count becomes `filters`. -/
def conv2d_shape (filters : ℕ) (s : Shape3) : Shape3 :=
  (s.1, s.2.1, filters)

/-- `keras.layers.BatchNormalization(mode=0, momentum=0.9)`: shape preserved. -/
def batchnorm_shape (s : Shape3) : Shape3 := s

/-- `keras.layers.MaxPooling2D()` with the default 2x2 pool and stride:
each spatial dimension is halved with floor division; channels preserved. -/
def maxpool_shape (s : Shape3) : Shape3 :=
  (s.1 / 2, s.2.1 / 2, s.2.2)

/-- `keras.layers.UpSampling2D()` with the default 2x2 factor: each spatial
dimension is doubled; channels preserved. -/
def upsample_shape (s : Shape3) : Shape3 :=
  (2 * s.1, 2 * s.2.1, s.2.2)

/-- `keras.layers.merge([d, c], concat_axis=3, mode="concat")`: the two
operands must agree on the spatial axes; the channel counts add.  A spatial
mismatch is rejected by the framework, modelled as `none`. -/
def merge_concat_shape (s t : Shape3) : Option Shape3 :=
  if s.1 = t.1 ∧ s.2.1 = t.2.1 then some (s.1, s.2.1, s.2.2 + t.2.2) else none

/-- Shape semantics of `get_core(dim1, dim2)`: the encoder/decoder trunk of
the UNet.  Returns the shape of the final 64-channel feature map `y`
(the input placeholder `x` always has shape `(dim1, dim2, 1)`), or `none`
when a skip-connection concatenation is rejected. -/
def get_core (dim1 dim2 : ℕ) : Option Shape3 :=
  let x : Shape3 := (dim1, dim2, 1)
  let a := batchnorm_shape (conv2d_shape 64 x)
  let a := batchnorm_shape (conv2d_shape 64 a)
  let y := maxpool_shape a
  let b := batchnorm_shape (conv2d_shape 128 y)
  let b := batchnorm_shape (conv2d_shape 128 b)
  let y := maxpool_shape b
  let c := batchnorm_shape (conv2d_shape 256 y)
  let c := batchnorm_shape (conv2d_shape 256 c)
  let y := maxpool_shape c
  let d := batchnorm_shape (conv2d_shape 512 y)
  let d := batchnorm_shape (conv2d_shape 512 d)
  let d := upsample_shape d
  match merge_concat_shape d c with
  | none => none
  | some y =>
    let e := batchnorm_shape (conv2d_shape 256 y)
    let e := batchnorm_shape (conv2d_shape 256 e)
    let e := upsample_shape e
    match merge_concat_shape e b with
    | none => none
    | some y =>
      let f := batchnorm_shape (conv2d_shape 128 y)
      let f := batchnorm_shape (conv2d_shape 128 f)
      let f := upsample_shape f
      match merge_concat_shape f a with
      | none => none
      | some y =>
        let y := batchnorm_shape (conv2d_shape 64 y)
        let y := batchnorm_shape (conv2d_shape 64 y)
        some y

/-- Shape semantics of `get_model_3_class(dim1, dim2)`: the core trunk
followed by a 1x1 convolution down to 3 channels and a softmax activation
(shape preserving). -/
def get_model_3_class (dim1 dim2 : ℕ) : Option Shape3 :=
  match get_core dim1 dim2 with
  | none => none
  | some y =>
    let y := conv2d_shape 3 y
    let y := y   -- Activation("softmax") preserves the shape
    some y

/-- Python tuple unpacking `dim1, dim2 = shape`: succeeds exactly on
two-element shapes, raises (modelled as `none`) otherwise. -/
def unpack2 (s : List ℕ) : Option (ℕ × ℕ) :=
  match s with
  | [d1, d2] => some (d1, d2)
  | _ => none

/-- Shape semantics of `unet_classify`: unpack the 2D input shape, reshape
into a single-item batch `(1, dim1, dim2, 1)`, run the model (whose output
gains the batch axis back), and drop the batch axis via
`pixel_classification[0, :, :, :]`. -/
def unet_classify_shape (s : List ℕ) : Option (List ℕ) :=
  match unpack2 s with
  | none => none
  | some (dim1, dim2) =>
    match get_model_3_class dim1 dim2 with
    | none => none
    | some out =>
      let batch_out := 1 :: [out.1, out.2.1, out.2.2]
      some (batch_out.drop 1)

/-! ## Value-level embedding: images and normalization -/

/-- `numpy.min` over the flattened data of a (nonempty) array. -/
def npMin : List ℚ → ℚ
  | [] => 0
  | x :: xs => xs.foldl min x

/-- `numpy.max` over the flattened data of a (nonempty) array. -/
def npMax : List ℚ → ℚ
  | [] => 0
  | x :: xs => xs.foldl max x

/-- A numpy array: its shape tuple and its row-major flattened data, with
exact rationals standing in for the floating-point values. -/
structure NDArr where
  shape : List ℕ
  data : List ℚ

/-- The normalization performed by `unet_classify` (lines 150-152 of the
source): subtract the minimum of the image, then divide every pixel by the
maximum of the min-shifted image.  `reshape` leaves the flattened data
unchanged. -/
def normalize_image (l : List ℚ) : List ℚ :=
  let shifted := l.map fun x => x - npMin l
  shifted.map fun x => x / npMax shifted

/-- The denominator of that division: the maximum of the min-shifted data. -/
def normalize_denominator (l : List ℚ) : ℚ :=
  npMax (l.map fun x => x - npMin l)

/-! ## World/effect model of weight provisioning -/

/-- An HTTP GET request: URL and query parameters, in order. -/
structure Request where
  url : String
  params : List (String × String)
deriving DecidableEq

/-- An HTTP response: its cookies and its body, as the list of chunks
delivered by `iter_content`. -/
structure Response where
  cookies : List (String × String)
  chunks : List (List ℕ)

/-- The observable side effects of `unet_initialize`. -/
inductive Effect where
  | makedirs (path : String)
  | netGet (r : Request)
  | writeFile (path : String)
deriving DecidableEq

/-- The world `unet_initialize` runs in: the filesystem (file contents by
path), the set of existing directories, and a deterministic network
session mapping each GET request to its response. -/
structure World where
  files : String → Option (List ℕ)
  dirs : String → Bool
  net : Request → Response

def google_drive_url : String := "https://docs.google.com/uc?export=download"

/-- `pkg_resources.resource_filename("cellprofiler", os.path.join(".cache", "unet-checkpoint.hdf5"))`. -/
def weights_filename : String := "cellprofiler/.cache/unet-checkpoint.hdf5"

/-- `os.path.dirname(weights_filename)`. -/
def cache_directory : String := "cellprofiler/.cache"

def model_id : String := "1I9j4oABbcV8EnvO_ufACXP9e4KyfHMtE"

/-- Python's `s.startswith(pre)`: a prefix test on the character
sequence (an executable embedding of the string prefix relation). -/
def startswith (s pre : String) : Bool :=
  pre.data.isPrefixOf s.data

/-- `get_confirm_token`: the value of the first response cookie whose key
starts with `download_warning`, if any. -/
def get_confirm_token (response : Response) : Option String :=
  (response.cookies.find? fun kv => startswith kv.1 "download_warning").map Prod.snd

/-- `save_response_content`: the bytes written to the destination — the
concatenation of the non-empty chunks of the response body (empty
keep-alive chunks are filtered out). -/
def save_response_content (response : Response) : List ℕ :=
  (response.chunks.filter fun c => !c.isEmpty).flatten

/-- `download_file_from_google_drive`, as a function of the network
session: the GET requests issued, in order, and the bytes saved to the
destination file.  Python's `if token:` is a truthiness test on the
`None`-or-string result of `get_confirm_token`: both `None` and the empty
string skip the confirmation request. -/
def download_file_from_google_drive (net : Request → Response) (id : String) :
    List Request × List ℕ :=
  let req1 : Request := ⟨google_drive_url, [("id", id)]⟩
  let response := net req1
  match get_confirm_token response with
  | some tok =>
    if tok ≠ "" then
      let req2 : Request := ⟨google_drive_url, [("id", id), ("confirm", tok)]⟩
      ([req1, req2], save_response_content (net req2))
    else
      ([req1], save_response_content response)
  | none => ([req1], save_response_content response)

/-- A constructed Keras model after `load_weights`: its input spatial
dimensions, the output shape of its graph, and the raw bytes of the
weights file it loaded. -/
structure Model where
  dim1 : ℕ
  dim2 : ℕ
  outputShape : Shape3
  weights : List ℕ
deriving DecidableEq

/-- `unet_initialize(input_shape)` over a `World`: unpack the 2D shape,
build the model graph, then ensure the weights file exists — downloading
it only when absent (creating the cache directory if needed) — and load
it.  Returns the loaded model together with the side effects performed, or
`none` when shape unpacking or graph construction raises. -/
def unet_initialize (w : World) (input_shape : List ℕ) : Option (Model × List Effect) :=
  match unpack2 input_shape with
  | none => none
  | some (dim1, dim2) =>
    match get_model_3_class dim1 dim2 with
    | none => none
    | some out =>
      match w.files weights_filename with
      | some content => some (⟨dim1, dim2, out, content⟩, [])
      | none =>
        let dirEffects :=
          if w.dirs cache_directory then [] else [Effect.makedirs cache_directory]
        let dl := download_file_from_google_drive w.net model_id
        some (⟨dim1, dim2, out, dl.2⟩,
          dirEffects ++ dl.1.map Effect.netGet ++ [Effect.writeFile weights_filename])

/-- `unet_classify(model, input_image)`, parameterized by the framework's
forward pass `predict` (delegated to Keras; modelled as an arbitrary
function of the loaded model and the normalized batch data, covering
`model.predict(images, batch_size=1)[0, :, :, :]`): unpack the 2D shape,
reshape (flattened data unchanged), normalize, and run the forward pass.
`none` models the raise on a non-2D input. -/
def unet_classify {Out : Type} (predict : Model → List ℚ → Out)
    (model : Model) (input_image : NDArr) : Option Out :=
  match unpack2 input_image.shape with
  | none => none
  | some _ => some (predict model (normalize_image input_image.data))

/-- The per-image pipeline run by the plugin's `run` method:
`unet_initialize` on the image's shape, then `unet_classify` on the image. -/
def unet_pipeline {Out : Type} (predict : Model → List ℚ → Out)
    (w : World) (input_image : NDArr) : Option Out :=
  match unet_initialize w input_image.shape with
  | none => none
  | some (model, _) => unet_classify predict model input_image

/-! ## Buffer/heap model of the numpy operations in `unet_classify` -/

/-- A heap of numpy buffers, each holding flattened data. -/
structure NpHeap where
  bufs : List (List ℚ)

/-- A reference to a numpy array: the index of its backing buffer. -/
structure NpRef where
  buf : ℕ

/-- The data an array reference sees. -/
def readBuf (h : NpHeap) (a : NpRef) : List ℚ := h.bufs.getD a.buf []

/-- Allocate a fresh buffer (numpy operations that copy). -/
def npAlloc (h : NpHeap) (b : List ℚ) : NpHeap × NpRef :=
  (⟨h.bufs ++ [b]⟩, ⟨h.bufs.length⟩)

/-- `ndarray.reshape`: a view on the same buffer, no allocation. -/
def np_reshape (h : NpHeap) (a : NpRef) : NpHeap × NpRef := (h, a)

/-- `ndarray.astype(numpy.float32)`: copies into a fresh buffer. -/
def np_astype (h : NpHeap) (a : NpRef) : NpHeap × NpRef :=
  npAlloc h (readBuf h a)

/-- `images - c`: allocates a fresh result buffer. -/
def np_sub_scalar (h : NpHeap) (a : NpRef) (c : ℚ) : NpHeap × NpRef :=
  npAlloc h ((readBuf h a).map fun x => x - c)

/-- `images / c`: allocates a fresh result buffer. -/
def np_div_scalar (h : NpHeap) (a : NpRef) (c : ℚ) : NpHeap × NpRef :=
  npAlloc h ((readBuf h a).map fun x => x / c)

/-- The array operations of `unet_classify` (lines 148-152 of the source)
in the heap model: reshape to a batch (view), astype (copy), subtract the
minimum, astype (copy), divide by the maximum of the shifted data. -/
def unet_classify_heap (h : NpHeap) (input_image : NpRef) : NpHeap × NpRef :=
  let s1 := np_reshape h input_image
  let s2 := np_astype s1.1 s1.2
  let m := npMin (readBuf s2.1 s2.2)
  let s3 := np_sub_scalar s2.1 s2.2 m
  let mx := npMax (readBuf s3.1 s3.2)
  let s4 := np_astype s3.1 s3.2
  np_div_scalar s4.1 s4.2 mx

/-! ## The softmax output head, over the reals -/

noncomputable section

/-- ReLU, the activation of every convolution (`option_dict_conv`). -/
def relu (x : ℝ) : ℝ := max x 0

/-- Per-pixel value of the 1x1, 3-filter convolution of
`get_model_3_class`, with its ReLU activation: an affine map of the core
features at that pixel, rectified. -/
def head_conv_pixel (wgt : Fin 3 → List ℝ) (bias : Fin 3 → ℝ)
    (feat : List ℝ) : Fin 3 → ℝ :=
  fun i => relu (((wgt i).zipWith (fun a b => a * b) feat).sum + bias i)

/-- `Activation("softmax")` on the 3 channel scores of one pixel. -/
def softmax3 (v : Fin 3 → ℝ) : Fin 3 → ℝ :=
  fun i => Real.exp (v i) / (Real.exp (v 0) + Real.exp (v 1) + Real.exp (v 2))

/-- The per-pixel output of `get_model_3_class`: softmax of the head
convolution applied to the core trunk's features at that pixel. -/
def get_model_3_class_pixel (wgt : Fin 3 → List ℝ) (bias : Fin 3 → ℝ)
    (feat : List ℝ) : Fin 3 → ℝ :=
  softmax3 (head_conv_pixel wgt bias feat)

end

/-- The core trunk on inputs whose dimensions are multiples of 8: all three
skip-connection merges align, and the final feature map is `(H, W, 64)`. -/
theorem get_core_div8 (H W : ℕ) (h1 : 8 ∣ H) (h2 : 8 ∣ W) :
    get_core H W = some (H, W, 64) := by
  obtain ⟨k, rfl⟩ := h1
  obtain ⟨m, rfl⟩ := h2
  have eH2 : 8 * k / 2 = 4 * k := by omega
  have eH4 : 4 * k / 2 = 2 * k := by omega
  have eH8 : 2 * k / 2 = k := by omega
  have eW2 : 8 * m / 2 = 4 * m := by omega
  have eW4 : 4 * m / 2 = 2 * m := by omega
  have eW8 : 2 * m / 2 = m := by omega
  have uH4 : 2 * (2 * k) = 4 * k := by ring
  have uH8 : 2 * (4 * k) = 8 * k := by ring
  have uW4 : 2 * (2 * m) = 4 * m := by ring
  have uW8 : 2 * (4 * m) = 8 * m := by ring
  simp [get_core, conv2d_shape, batchnorm_shape, maxpool_shape, upsample_shape,
        merge_concat_shape, eH2, eH4, eH8, eW2, eW4, eW8, uH4, uH8, uW4, uW8]

/-- Claim C7 helper: if the core trunk builds successfully, both input
dimensions are multiples of 8 (the last merge forces `8 * (H / 8) = H`). -/
theorem get_core_some_dvd (H W : ℕ) (s : Shape3) (h : get_core H W = some s) :
    8 ∣ H ∧ 8 ∣ W := by
  unfold get_core at h
  simp only [conv2d_shape, batchnorm_shape, maxpool_shape, upsample_shape] at h
  split at h
  · exact absurd h (by simp)
  · rename_i y1 hm1
    split at h
    · exact absurd h (by simp)
    · rename_i y2 hm2
      split at h
      · exact absurd h (by simp)
      · rename_i y3 hm3
        unfold merge_concat_shape at hm1 hm2 hm3
        split_ifs at hm1 with hc1
        obtain rfl := Option.some.inj hm1
        split_ifs at hm2 with hc2
        obtain rfl := Option.some.inj hm2
        split_ifs at hm3 with hc3
        simp only at hc1 hc2 hc3
        constructor <;> omega

/-- Claim C1: for a 2D input of shape `(H, W)` with `H` and `W` multiples
of 8, `get_model_3_class` maps the `(H, W, 1)` input to an `(H, W, 3)`
output, and `unet_classify` discards only the batch axis, so its result
has shape `(H, W, 3)`. -/
theorem unet_classify_shape_mul8 (H W : ℕ) (h1 : 8 ∣ H) (h2 : 8 ∣ W) :
    get_model_3_class H W = some (H, W, 3) ∧
      unet_classify_shape [H, W] = some [H, W, 3] := by
  have hm : get_model_3_class H W = some (H, W, 3) := by
    simp [get_model_3_class, get_core_div8 H W h1 h2, conv2d_shape]
  exact ⟨hm, by simp [unet_classify_shape, unpack2, hm]⟩

/-- Claim C1 witness: a concrete 256x256 input. -/
theorem unet_classify_shape_mul8_witness :
    (8 : ℕ) ∣ 256 ∧ unet_classify_shape [256, 256] = some [256, 256, 3] :=
  ⟨by decide, (unet_classify_shape_mul8 256 256 (by decide) (by decide)).2⟩

/-- Claim C7: when either input dimension is not a multiple of 8, the
upsampled decoder feature map cannot match the encoder skip connection, a
`merge` is rejected, and model construction fails (`none`); there is no
padding or cropping correction, so no misaligned output is ever produced. -/
theorem get_model_3_class_not_mul8 (H W : ℕ) (h : ¬ 8 ∣ H ∨ ¬ 8 ∣ W) :
    get_model_3_class H W = none ∧ unet_classify_shape [H, W] = none := by
  have hc : get_core H W = none := by
    cases hg : get_core H W with
    | none => rfl
    | some s =>
      rcases get_core_some_dvd H W s hg with ⟨d1, d2⟩
      rcases h with h | h
      · exact absurd d1 h
      · exact absurd d2 h
  have hm : get_model_3_class H W = none := by simp [get_model_3_class, hc]
  exact ⟨hm, by simp [unet_classify_shape, unpack2, hm]⟩

/-- Claim C7 witness: the concrete 100x100 input named by the spec. -/
theorem get_model_3_class_not_mul8_witness :
    ¬ (8 : ℕ) ∣ 100 ∧ get_model_3_class 100 100 = none :=
  ⟨by decide, (get_model_3_class_not_mul8 100 100 (Or.inl (by decide))).1⟩

/-! ## Normalization lemmas (claims C3, C4) -/

theorem foldl_max_map_sub (xs : List ℚ) (x c : ℚ) :
    ((xs.map fun y => y - c).foldl max (x - c)) = xs.foldl max x - c := by
  induction xs generalizing x with
  | nil => rfl
  | cons a as ih => simp only [List.map_cons, List.foldl_cons, max_sub_sub_right, ih]

/-- Shifting a nonempty image by a constant shifts its `numpy.max`. -/
theorem npMax_map_sub (l : List ℚ) (c : ℚ) (h : l ≠ []) :
    npMax (l.map fun x => x - c) = npMax l - c := by
  cases l with
  | nil => exact absurd rfl h
  | cons x xs => simpa [npMax] using foldl_max_map_sub xs x c

theorem foldl_min_uniform (xs : List ℚ) (v : ℚ) (hx : ∀ x ∈ xs, x = v) :
    xs.foldl min v = v := by
  induction xs with
  | nil => rfl
  | cons a as ih =>
    have ha : a = v := hx a (by simp)
    rw [List.foldl_cons, ha, min_self]
    exact ih fun x hx2 => hx x (by simp [hx2])

theorem foldl_max_uniform (xs : List ℚ) (v : ℚ) (hx : ∀ x ∈ xs, x = v) :
    xs.foldl max v = v := by
  induction xs with
  | nil => rfl
  | cons a as ih =>
    have ha : a = v := hx a (by simp)
    rw [List.foldl_cons, ha, max_self]
    exact ih fun x hx2 => hx x (by simp [hx2])

/-- `numpy.min` of a nonempty uniform image is its common value. -/
theorem npMin_uniform (l : List ℚ) (v : ℚ) (hu : ∀ x ∈ l, x = v) (h : l ≠ []) :
    npMin l = v := by
  cases l with
  | nil => exact absurd rfl h
  | cons x xs =>
    have hx : x = v := hu x (by simp)
    simpa [npMin, hx] using foldl_min_uniform xs v fun y hy => hu y (by simp [hy])

/-- `numpy.max` of a nonempty uniform image is its common value. -/
theorem npMax_uniform (l : List ℚ) (v : ℚ) (hu : ∀ x ∈ l, x = v) (h : l ≠ []) :
    npMax l = v := by
  cases l with
  | nil => exact absurd rfl h
  | cons x xs =>
    have hx : x = v := hu x (by simp)
    simpa [npMax, hx] using foldl_max_uniform xs v fun y hy => hu y (by simp [hy])

/-- Claim C3: for a non-uniform image, normalization maps a pixel holding
the maximum intensity to exactly 1 and a pixel holding the minimum
intensity to exactly 0: it subtracts the image minimum, then divides by
the maximum of the shifted image. -/
theorem normalize_image_minmax (l : List ℚ) (i : ℕ)
    (hi : i < l.length) (hni : i < (normalize_image l).length)
    (hlt : npMin l < npMax l) :
    (l[i] = npMax l → (normalize_image l)[i] = 1) ∧
    (l[i] = npMin l → (normalize_image l)[i] = 0) := by
  have hne : l ≠ [] := by
    cases l with
    | nil => simp at hi
    | cons x xs => simp
  have hD : npMax (l.map fun x => x - npMin l) = npMax l - npMin l :=
    npMax_map_sub l (npMin l) hne
  constructor <;> intro hx
  · simp only [normalize_image, List.getElem_map, hD, hx]
    exact div_self (sub_ne_zero.mpr (ne_of_gt hlt))
  · simp [normalize_image, List.getElem_map, hD, hx]

/-- Claim C3 witness: the image `[0, 2, 1]`; pixel 1 holds the maximum,
pixel 0 the minimum. -/
theorem normalize_image_minmax_witness :
    (normalize_image [(0 : ℚ), 2, 1]).get ⟨1, by decide⟩ = 1 ∧
      (normalize_image [(0 : ℚ), 2, 1]).get ⟨0, by decide⟩ = 0 :=
  ⟨by
    have h := (normalize_image_minmax [(0 : ℚ), 2, 1] 1 (by decide) (by decide)
      (by decide)).1 (by decide)
    simpa using h,
   by
    have h := (normalize_image_minmax [(0 : ℚ), 2, 1] 0 (by decide) (by decide)
      (by decide)).2 (by decide)
    simpa using h⟩

/-- Claim C4: on a uniform-intensity image, the maximum of the min-shifted
image — the divisor of the normalization — is 0, and no branch of
`unet_classify` guards this: classification still proceeds to the forward
pass with the divided data. -/
theorem unet_classify_uniform_div_zero (v : ℚ) (d1 d2 : ℕ) (data : List ℚ)
    (hne : data ≠ []) (hu : ∀ x ∈ data, x = v) :
    normalize_denominator data = 0 ∧
      ∀ {Out : Type} (predict : Model → List ℚ → Out) (model : Model),
        unet_classify predict model ⟨[d1, d2], data⟩ =
          some (predict model (normalize_image data)) := by
  constructor
  · have hmin : npMin data = v := npMin_uniform data v hu hne
    have hzero : ∀ y ∈ data.map fun x => x - npMin data, y = 0 := by
      intro y hy
      rcases List.mem_map.mp hy with ⟨x, hxmem, rfl⟩
      rw [hu x hxmem, hmin, sub_self]
    have hne2 : (data.map fun x => x - npMin data) ≠ [] := by
      simpa using hne
    simpa [normalize_denominator] using
      npMax_uniform (data.map fun x => x - npMin data) 0 hzero hne2
  · intro Out predict model
    rfl

/-- Claim C4 witness: the uniform 1x2 image `[5, 5]`. -/
theorem unet_classify_uniform_div_zero_witness :
    normalize_denominator [(5 : ℚ), 5] = 0 ∧
      unet_classify (fun _ l => l) ⟨1, 2, (1, 2, 3), []⟩ ⟨[1, 2], [(5 : ℚ), 5]⟩ =
        some (normalize_image [(5 : ℚ), 5]) :=
  ⟨(unet_classify_uniform_div_zero 5 1 2 [(5 : ℚ), 5] (by decide) (by decide)).1,
   (unet_classify_uniform_div_zero 5 1 2 [(5 : ℚ), 5] (by decide) (by decide)).2
     (fun _ l => l) ⟨1, 2, (1, 2, 3), []⟩⟩

/-! ## Weight provisioning and pipeline (claims C2, C8, C10, C6) -/

/-- Claim C2: weight provisioning is idempotent — whenever the weights
file already exists at the cache path, `unet_initialize` performs no side
effect at all (in particular, no network request and no invocation of
`download_file_from_google_drive`), and the model loads the existing file
content as-is, whatever that content is (no integrity check). -/
theorem unet_initialize_idempotent (w : World) (s : List ℕ) (c : List ℕ)
    (hfile : w.files weights_filename = some c) (m : Model) (effs : List Effect)
    (hrun : unet_initialize w s = some (m, effs)) :
    effs = [] ∧ m.weights = c := by
  unfold unet_initialize at hrun
  split at hrun
  · exact absurd hrun (by simp)
  · split at hrun
    · exact absurd hrun (by simp)
    · rw [hfile] at hrun
      obtain ⟨rfl, rfl⟩ := Prod.mk.injEq .. ▸ Option.some.inj hrun
      exact ⟨rfl, rfl⟩

/-- Claim C2 witness: a world whose cache already holds (arbitrary)
weights bytes `[3, 1, 4]`; an 8x8 input. -/
theorem unet_initialize_idempotent_witness :
    unet_initialize
        ⟨fun p => if p = weights_filename then some [3, 1, 4] else none,
          fun _ => false, fun _ => ⟨[("download_warning_a", "t")], [[9]]⟩⟩
        [8, 8] =
      some (⟨8, 8, (8, 8, 3), [3, 1, 4]⟩, []) ∧ ([] : List Effect) = [] :=
  ⟨by decide,
   (unet_initialize_idempotent
      ⟨fun p => if p = weights_filename then some [3, 1, 4] else none,
        fun _ => false, fun _ => ⟨[("download_warning_a", "t")], [[9]]⟩⟩
      [8, 8] [3, 1, 4] (by decide) ⟨8, 8, (8, 8, 3), [3, 1, 4]⟩ []
      (by decide)).1⟩

/-- Claim C8: classification is deterministic — the pipeline's result
depends only on the input image and the content of the weights file.  Any
two worlds that hold the same weights file content (however much their
other files, directories, and network behaviour differ) give the same
output for the same input image and the same forward-pass function. -/
theorem unet_pipeline_deterministic {Out : Type} (predict : Model → List ℚ → Out)
    (w1 w2 : World) (input_image : NDArr) (c : List ℕ)
    (h1 : w1.files weights_filename = some c)
    (h2 : w2.files weights_filename = some c) :
    unet_pipeline predict w1 input_image = unet_pipeline predict w2 input_image := by
  cases hs : unpack2 input_image.shape with
  | none => simp [unet_pipeline, unet_initialize, hs]
  | some p =>
    obtain ⟨d1, d2⟩ := p
    cases hm : get_model_3_class d1 d2 with
    | none => simp [unet_pipeline, unet_initialize, hs, hm]
    | some out => simp [unet_pipeline, unet_initialize, hs, hm, h1, h2]

/-- Claim C8 witness: two worlds differing in directories and network
behaviour but sharing the weights file; a concrete 8x8 image. -/
theorem unet_pipeline_deterministic_witness :
    unet_pipeline (fun _ l => l)
        ⟨fun p => if p = weights_filename then some [7] else none,
          fun _ => false, fun _ => ⟨[], []⟩⟩
        ⟨[8, 8], List.replicate 64 1⟩ =
      unet_pipeline (fun _ l => l)
        ⟨fun p => if p = weights_filename then some [7] else none,
          fun _ => true, fun _ => ⟨[("download_warning_b", "u")], [[2]]⟩⟩
        ⟨[8, 8], List.replicate 64 1⟩ :=
  unet_pipeline_deterministic (fun _ l => l) _ _ ⟨[8, 8], List.replicate 64 1⟩ [7]
    (by simp) (by simp)

/-- Claim C10: an input whose shape is not exactly two-dimensional makes
both `unet_initialize` and `unet_classify` fail at the two-element tuple
unpacking `dim1, dim2 = ...`, before any model construction, download, or
inference; only strictly 2D inputs proceed. -/
theorem unet_non2d_fails (w : World) (s : List ℕ) (hs : s.length ≠ 2) :
    unpack2 s = none ∧ unet_initialize w s = none ∧
      ∀ {Out : Type} (predict : Model → List ℚ → Out) (model : Model) (data : List ℚ),
        unet_classify predict model ⟨s, data⟩ = none := by
  have hu : unpack2 s = none := by
    cases s with
    | nil => rfl
    | cons a t =>
      cases t with
      | nil => rfl
      | cons b t2 =>
        cases t2 with
        | nil => simp at hs
        | cons c t3 => rfl
  refine ⟨hu, ?_, ?_⟩
  · simp [ unet_initialize, hu]
  · intro Out predict model data
    simp [ unet_classify, hu]

/-- Claim C10 witness: the 3D shape `[4, 4, 1]` (a multi-channel image). -/
theorem unet_non2d_fails_witness :
    unet_initialize ⟨fun _ => none, fun _ => false, fun _ => ⟨[], []⟩⟩ [4, 4, 1] = none ∧
      unet_classify (fun _ l => l) ⟨4, 4, (4, 4, 3), []⟩ ⟨[4, 4, 1], [0]⟩ = none :=
  ⟨(unet_non2d_fails ⟨fun _ => none, fun _ => false, fun _ => ⟨[], []⟩⟩ [4, 4, 1]
      (by decide)).2.1,
   (unet_non2d_fails ⟨fun _ => none, fun _ => false, fun _ => ⟨[], []⟩⟩ [4, 4, 1]
      (by decide)).2.2 (fun _ l => l) ⟨4, 4, (4, 4, 3), []⟩ [0]⟩

/-- Claim C6 counterexample: a session whose first response carries a
`download_warning` cookie with an empty value.  The cookie with the
marker prefix exists, yet `if token:` is false for the empty string, so
the program issues exactly one GET — refuting the claim that a prefixed
cookie alone always triggers one additional request. -/
theorem download_file_protocol_counterexample :
    (∃ kv ∈ (Response.mk [("download_warning_x", "")] [[1]]).cookies,
        startswith kv.1 "download_warning" = true) ∧
      (download_file_from_google_drive
          (fun _ => ⟨[("download_warning_x", "")], [[1]]⟩) "X").1 =
        [⟨google_drive_url, [("id", "X")]⟩] := by
  constructor
  · exact ⟨("download_warning_x", ""), by decide, by decide⟩
  · decide

/-- Claim C6 (amended): the download protocol.  The first GET carries the
`id` parameter; a second GET — carrying the token as the `confirm`
parameter — is issued exactly when some cookie of the first response has a
key prefixed `download_warning` and the first such cookie's value (the
token) is non-empty, Python's `if token:` treating the empty string as
false; in all cases the body of the final response is what is saved to
disk. -/
theorem download_file_protocol (net : Request → Response) (id : String) :
    ((get_confirm_token (net ⟨google_drive_url, [("id", id)]⟩)).isSome ↔
      ∃ kv ∈ (net ⟨google_drive_url, [("id", id)]⟩).cookies,
        startswith kv.1 "download_warning" = true) ∧
    (match get_confirm_token (net ⟨google_drive_url, [("id", id)]⟩) with
     | some tok =>
        if tok ≠ "" then
          download_file_from_google_drive net id =
            ([⟨google_drive_url, [("id", id)]⟩,
              ⟨google_drive_url, [("id", id), ("confirm", tok)]⟩],
             save_response_content (net ⟨google_drive_url, [("id", id), ("confirm", tok)]⟩))
        else
          download_file_from_google_drive net id =
            ([⟨google_drive_url, [("id", id)]⟩],
             save_response_content (net ⟨google_drive_url, [("id", id)]⟩))
     | none =>
        download_file_from_google_drive net id =
          ([⟨google_drive_url, [("id", id)]⟩],
           save_response_content (net ⟨google_drive_url, [("id", id)]⟩))) := by
  constructor
  · simp [get_confirm_token, List.find?_isSome]
  · cases h : get_confirm_token (net ⟨google_drive_url, [("id", id)]⟩) with
    | some tok =>
      by_cases he : tok = ""
      · simp [download_file_from_google_drive, h, he]
      · simp [download_file_from_google_drive, h, he]
    | none => simp [download_file_from_google_drive, h]

/-! ## No mutation of the input array (claim C9) -/

/-- Allocating a fresh buffer leaves every existing array's view of the
heap unchanged. -/
theorem readBuf_npAlloc (h : NpHeap) (b : List ℚ) (a : NpRef)
    (hv : a.buf < h.bufs.length) :
    readBuf (npAlloc h b).1 a = readBuf h a := by
  show (h.bufs ++ [b]).getD a.buf [] = h.bufs.getD a.buf []
  exact List.getD_append _ _ _ _ hv

/-- Claim C9: `unet_classify` never mutates its input array.  The reshape
is a view, the `astype` conversions copy, and the subtraction and division
allocate fresh result buffers, so the input's backing buffer reads the
same before and after, and the result lives in a distinct buffer. -/
theorem unet_classify_heap_no_mutation (h : NpHeap) (a : NpRef)
    (hv : a.buf < h.bufs.length) :
    readBuf (unet_classify_heap h a).1 a = readBuf h a ∧
      (unet_classify_heap h a).2.buf ≠ a.buf := by
  simp only [unet_classify_heap, np_reshape, np_astype, np_sub_scalar, np_div_scalar]
  constructor
  · rw [readBuf_npAlloc, readBuf_npAlloc, readBuf_npAlloc, readBuf_npAlloc] <;>
      (try simp only [npAlloc, List.length_append, List.length_cons, List.length_nil]) <;>
      omega
  · simp only [npAlloc, List.length_append, List.length_cons, List.length_nil]
    omega

/-- Claim C9 witness: a heap holding one buffer `[1, 2]` referenced by the
input array. -/
theorem unet_classify_heap_no_mutation_witness :
    readBuf (unet_classify_heap ⟨[[1, 2]]⟩ ⟨0⟩).1 ⟨0⟩ = readBuf ⟨[[1, 2]]⟩ ⟨0⟩ ∧
      (unet_classify_heap ⟨[[1, 2]]⟩ ⟨0⟩).2.buf ≠ 0 :=
  unet_classify_heap_no_mutation ⟨[[1, 2]]⟩ ⟨0⟩ (by decide)

/-! ## The softmax property of the output head (claim C5) -/

/-- Claim C5: each per-pixel output of the 3-class model head is a
probability vector — the 3 channel values are non-negative and sum to
exactly 1 — because the output head applies a softmax activation to the
(rectified) 1x1-convolution scores, whatever the core features and head
weights are. -/
theorem get_model_3_class_pixel_prob (wgt : Fin 3 → List ℝ) (bias : Fin 3 → ℝ)
    (feat : List ℝ) :
    (∀ i, 0 ≤ get_model_3_class_pixel wgt bias feat i) ∧
      get_model_3_class_pixel wgt bias feat 0 +
          get_model_3_class_pixel wgt bias feat 1 +
          get_model_3_class_pixel wgt bias feat 2 = 1 := by
  have hpos : 0 < Real.exp (head_conv_pixel wgt bias feat 0) +
      Real.exp (head_conv_pixel wgt bias feat 1) +
      Real.exp (head_conv_pixel wgt bias feat 2) := by positivity
  constructor
  · intro i
    exact div_nonneg (Real.exp_nonneg _) hpos.le
  · show Real.exp _ / _ + Real.exp _ / _ + Real.exp _ / _ = 1
    rw [div_add_div_same, div_add_div_same]
    exact div_self hpos.ne'
